import Mathlib

/-!
Verification of the Segment Risk Evaluator of the ChurnSight dashboard
(src/main.py, "Профиль клиента" tab), as described in spec.md.

The population is the loaded CSV (`data`), a table of customer records.
Numeric columns are modelled as rationals (the dataset holds exact decimal
values; the Python code moves them through `int(...)`/`float(...)` without
changing them), and the outcome column `Exited` as `Option ℚ`: `none` is a
missing label (NaN in pandas, as written by the save-client path), which
pandas `.mean()` skips.
-/

/-- One row of `Customer-Churn-Records.csv` (the columns the analysis reads). -/
structure Record where
  customerId : Int
  creditScore : ℚ
  geography : String
  gender : String
  age : ℚ
  tenure : ℚ
  balance : ℚ
  numOfProducts : ℚ
  hasCrCard : ℚ
  isActiveMember : ℚ
  estimatedSalary : ℚ
  complain : ℚ
  satisfactionScore : ℚ
  cardType : String
  pointEarned : ℚ
  exited : Option ℚ
  deriving DecidableEq, Repr

/-- The `client` attribute dict built in src/main.py lines 595-610 (also the
values extracted from a selected row in lines 373-386): the same schema as a
record, without identifier and outcome. -/
structure Client where
  creditScore : ℚ
  geography : String
  gender : String
  age : ℚ
  tenure : ℚ
  balance : ℚ
  numOfProducts : ℚ
  hasCrCard : ℚ
  isActiveMember : ℚ
  estimatedSalary : ℚ
  complain : ℚ
  satisfactionScore : ℚ
  cardType : String
  pointEarned : ℚ
  deriving DecidableEq, Repr

/-- Step-1 cohort filter (src/main.py lines 613-617):
records matching Geography, IsActiveMember and NumOfProducts. -/
def segStep1 (data : List Record) (c : Client) : List Record :=
  data.filter fun r =>
    decide (r.geography = c.geography ∧ r.isActiveMember = c.isActiveMember ∧
      r.numOfProducts = c.numOfProducts)

/-- Step-2 cohort filter (src/main.py lines 621-624):
records matching Geography and IsActiveMember. -/
def segStep2 (data : List Record) (c : Client) : List Record :=
  data.filter fun r =>
    decide (r.geography = c.geography ∧ r.isActiveMember = c.isActiveMember)

/-- Step-3 cohort filter (src/main.py line 628): records matching Geography. -/
def segStep3 (data : List Record) (c : Client) : List Record :=
  data.filter fun r => decide (r.geography = c.geography)

/-- Cohort selection, src/main.py lines 613-633 (identical block lines 392-412):
sequential reassignment of `segment` / `segment_level` under
`if len(segment) < 40`, `if len(segment) < 40`, `if len(segment) == 0`. -/
def segmentSel (data : List Record) (c : Client) : List Record × String :=
  let p1 := (segStep1 data c, "Geography + IsActiveMember + NumOfProducts")
  let p2 := if p1.1.length < 40 then
      (segStep2 data c, "Geography + IsActiveMember")
    else p1
  let p3 := if p2.1.length < 40 then (segStep3 data c, "Geography") else p2
  if p3.1.length = 0 then (data, "вся база") else p3

/-- pandas `Series.mean()` with the default `skipna=True` on an `Option ℚ`
column: the mean of the present values, NaN (here `none`) when no value is
present. -/
def seriesMean (vals : List (Option ℚ)) : Option ℚ :=
  let known := vals.filterMap id
  if known.length = 0 then none else some (known.sum / known.length)

/-- `segment["Exited"].mean()` (src/main.py line 635). -/
def segmentChurn (seg : List Record) : Option ℚ :=
  seriesMean (seg.map (·.exited))

/-- The risk-tier thresholds of src/main.py lines 637-645 on an actual
(non-NaN) churn rate. -/
def riskLabel (r : ℚ) : String :=
  if r < 15/100 then "Низкий риск"
  else if r < 30/100 then "Средний риск"
  else "Повышенный риск"

/-- The tier the chain of comparisons in src/main.py lines 637-645 produces
from `segment_churn`. When the mean is NaN (no known outcome), both Python
comparisons `NaN < 0.15` and `NaN < 0.30` are false, so the `else` branch
("Повышенный риск") is taken. -/
def riskLabelOfChurn : Option ℚ → String
  | some r => riskLabel r
  | none => "Повышенный риск"

/-- pandas `Series.median()` (default linear interpolation): middle element of
the sorted values for odd length, mean of the two middle elements for even
length. Used only for `data["Balance"].median()` in the factor checks. -/
def median (vals : List ℚ) : ℚ :=
  let s := List.insertionSort (· ≤ ·) vals
  let n := s.length
  if n = 0 then 0
  else if n % 2 = 1 then s.getD (n / 2) 0
  else (s.getD (n / 2 - 1) 0 + s.getD (n / 2) 0) / 2

def germanyMsg : String :=
  "Клиент из Germany — в этом регионе исторически самый высокий отток."

def inactiveMsg : String :=
  "Клиент неактивен (IsActiveMember=0) — это сильно повышает риск."

def productsMsg : String :=
  "У клиента много продуктов (NumOfProducts ≥ 3) — такие чаще уходят."

def creditMsg : String := "Низкий кредитный рейтинг (CreditScore < 600)."

def ageMsg : String := "Возраст 40+ — это сегмент с повышенным риском оттока."

def satisfactionMsg : String :=
  "Низкий уровень удовлетворённости (Satisfaction Score < 3)."

def complainMsg : String := "Есть жалобы клиента (Complain > 0)."

def balanceMsg : String := "Высокий баланс — важно удержать такого клиента."

def noFactorsMsg : String :=
  "Явных факторов повышенного риска не выявлено по простым правилам."

/-- The factor list of src/main.py lines 659-679 (identical block lines
438-458): eight sequential conditional appends, then the empty list is
replaced by the placeholder (lines 678-679). -/
def factorsF (data : List Record) (c : Client) : List String :=
  let fs : List String := []
  let fs := if c.geography = "Germany" then fs ++ [germanyMsg] else fs
  let fs := if c.isActiveMember = 0 then fs ++ [inactiveMsg] else fs
  let fs := if 3 ≤ c.numOfProducts then fs ++ [productsMsg] else fs
  let fs := if c.creditScore < 600 then fs ++ [creditMsg] else fs
  let fs := if 40 ≤ c.age then fs ++ [ageMsg] else fs
  let fs := if c.satisfactionScore < 3 then fs ++ [satisfactionMsg] else fs
  let fs := if 0 < c.complain then fs ++ [complainMsg] else fs
  let fs := if median (data.map (·.balance)) < c.balance then fs ++ [balanceMsg]
    else fs
  if fs = [] then [noFactorsMsg] else fs

/-- The spec's reading of the factor enumeration: the eight fixed boolean
checks with their messages, in the listed order (spec.md section 4.1). -/
def factorChecks (data : List Record) (c : Client) : List (Bool × String) :=
  [(decide (c.geography = "Germany"), germanyMsg),
   (decide (c.isActiveMember = 0), inactiveMsg),
   (decide (3 ≤ c.numOfProducts), productsMsg),
   (decide (c.creditScore < 600), creditMsg),
   (decide (40 ≤ c.age), ageMsg),
   (decide (c.satisfactionScore < 3), satisfactionMsg),
   (decide (0 < c.complain), complainMsg),
   (decide (median (data.map (·.balance)) < c.balance), balanceMsg)]

/-- The applicable checks' messages, with the empty list replaced by the
placeholder (spec-side description, to be compared with `factorsF`). -/
def factorsSpec (data : List Record) (c : Client) : List String :=
  let l := ((factorChecks data c).filter (·.1)).map (·.2)
  if l = [] then [noFactorsMsg] else l

/-- `(data[col] <= val).mean()` (src/main.py line 695, also line 475):
the fraction of the column's values that are ≤ the customer's value. -/
def pct (vals : List ℚ) (v : ℚ) : ℚ :=
  ((vals.filter fun x => decide (x ≤ v)).length : ℚ) / (vals.length : ℚ)

/-- The percentile table of src/main.py lines 685-703 (also 463-484): one row
per continuous attribute, in the listed order. -/
def percentileRows (data : List Record) (c : Client) : List (String × ℚ) :=
  [("Кредитный рейтинг", pct (data.map (·.creditScore)) c.creditScore),
   ("Возраст", pct (data.map (·.age)) c.age),
   ("Баланс на счёте", pct (data.map (·.balance)) c.balance),
   ("Зарплата", pct (data.map (·.estimatedSalary)) c.estimatedSalary),
   ("Стаж клиента", pct (data.map (·.tenure)) c.tenure),
   ("Удовлетворённость", pct (data.map (·.satisfactionScore)) c.satisfactionScore),
   ("Накопленные баллы", pct (data.map (·.pointEarned)) c.pointEarned)]

/-- The full risk assessment shown by the "Профиль клиента" tab for one
analysis request (spec.md section 3, "Risk assessment"). -/
structure RiskAssessment where
  cohort : List Record
  cohortLevel : String
  cohortChurn : Option ℚ
  baseChurn : Option ℚ
  riskTier : String
  factorList : List String
  percentiles : List (String × ℚ)
  deriving DecidableEq, Repr

/-- The whole evaluation path of src/main.py lines 613-703 (cohort selection,
churn rate, tier, factors, percentiles), plus the population-wide
`base_churn = data["Exited"].mean()` of line 334. -/
def evaluate (data : List Record) (c : Client) : RiskAssessment :=
  let sel := segmentSel data c
  let churn := segmentChurn sel.1
  { cohort := sel.1
    cohortLevel := sel.2
    cohortChurn := churn
    baseChurn := seriesMean (data.map (·.exited))
    riskTier := riskLabelOfChurn churn
    factorList := factorsF data c
    percentiles := percentileRows data c }

/-- `Series.max()` on the CustomerId column: NaN (`none`) on an empty table. -/
def seriesMax : List Int → Option Int
  | [] => none
  | x :: xs => some (match seriesMax xs with
      | none => x
      | some m => max x m)

/-- `new_id = int(data["CustomerId"].max()) + 1` (src/main.py line 730; the
CustomerId column is always present in the loaded schema). `int(NaN)` raises,
so the value only exists for a non-empty table. -/
def new_id (data : List Record) : Option Int :=
  (seriesMax (data.map (·.customerId))).map (· + 1)

/-- `client_row = client.copy(); client_row["CustomerId"] = new_id;
client_row["Exited"] = None` (src/main.py lines 731-733). -/
def clientRow (c : Client) (nid : Int) : Record :=
  { customerId := nid
    creditScore := c.creditScore
    geography := c.geography
    gender := c.gender
    age := c.age
    tenure := c.tenure
    balance := c.balance
    numOfProducts := c.numOfProducts
    hasCrCard := c.hasCrCard
    isActiveMember := c.isActiveMember
    estimatedSalary := c.estimatedSalary
    complain := c.complain
    satisfactionScore := c.satisfactionScore
    cardType := c.cardType
    pointEarned := c.pointEarned
    exited := none }

/-- `updated_data = pd.concat([data, pd.DataFrame([client_row])])`
(src/main.py lines 735-738): the saved table appends the new row. -/
def saveClient (data : List Record) (c : Client) : Option (List Record) :=
  (new_id data).map fun nid => data ++ [clientRow c nid]

/-- The attribute extraction of src/main.py lines 373-386: an existing row
drawn from the base by CustomerId, read back into the client schema (the
`int(...)`/`float(...)` conversions are exact on the stored values). -/
def clientOfRecord (r : Record) : Client :=
  { creditScore := r.creditScore
    geography := r.geography
    gender := r.gender
    age := r.age
    tenure := r.tenure
    balance := r.balance
    numOfProducts := r.numOfProducts
    hasCrCard := r.hasCrCard
    isActiveMember := r.isActiveMember
    estimatedSalary := r.estimatedSalary
    complain := r.complain
    satisfactionScore := r.satisfactionScore
    cardType := r.cardType
    pointEarned := r.pointEarned }

/-- The application state: the in-memory population table `data`. -/
structure AppState where
  data : List Record
  deriving DecidableEq, Repr

/-- One analysis request: reads the table (pandas boolean-mask selection and
aggregation return new objects; src/main.py lines 613-703 never assign to
`data`) and produces the assessment. -/
def analyzeAction (st : AppState) (c : Client) : AppState × RiskAssessment :=
  (st, evaluate st.data c)

/-- The save-client request (src/main.py lines 729-739): replaces the stored
table with the appended one. -/
def saveAction (st : AppState) (c : Client) : AppState :=
  match saveClient st.data c with
  | none => st
  | some d => ⟨d⟩

lemma segStep1_sublist_segStep2 (data : List Record) (c : Client) :
    (segStep1 data c).Sublist (segStep2 data c) := by
  refine List.monotone_filter_right data (fun r h => ?_)
  simp only [decide_eq_true_eq] at h ⊢
  exact ⟨h.1, h.2.1⟩

lemma segStep2_sublist_segStep3 (data : List Record) (c : Client) :
    (segStep2 data c).Sublist (segStep3 data c) := by
  refine List.monotone_filter_right data (fun r h => ?_)
  simp only [decide_eq_true_eq] at h ⊢
  exact h.1

lemma segStep3_sublist_data (data : List Record) (c : Client) :
    (segStep3 data c).Sublist data :=
  List.filter_sublist data

/-- The nested-if chain of src/main.py lines 613-633, written as the ordered
fallback chain the spec describes. -/
lemma segmentSel_eq (data : List Record) (c : Client) :
    segmentSel data c =
      if 40 ≤ (segStep1 data c).length then
        (segStep1 data c, "Geography + IsActiveMember + NumOfProducts")
      else if 40 ≤ (segStep2 data c).length then
        (segStep2 data c, "Geography + IsActiveMember")
      else if segStep3 data c = [] then (data, "вся база")
      else (segStep3 data c, "Geography") := by
  by_cases h1 : (segStep1 data c).length < 40
  · by_cases h2 : (segStep2 data c).length < 40
    · by_cases h3 : (segStep3 data c).length = 0
      · have h3' : segStep3 data c = [] := List.length_eq_zero.mp h3
        simp [segmentSel, h1, h2, h3, h3', Nat.not_le.mpr h1, Nat.not_le.mpr h2]
      · have h3' : segStep3 data c ≠ [] := fun hh => h3 (by simp [hh])
        simp [segmentSel, h1, h2, h3, h3', Nat.not_le.mpr h1, Nat.not_le.mpr h2]
    · have h2' : 40 ≤ (segStep2 data c).length := Nat.not_lt.mp h2
      have h0 : ¬((segStep2 data c).length = 0) := by omega
      simp [segmentSel, h1, h2, h2', h0, Nat.not_le.mpr h1]
  · have h1' : 40 ≤ (segStep1 data c).length := Nat.not_lt.mp h1
    have h0 : ¬((segStep1 data c).length = 0) := by omega
    simp [segmentSel, h1, h1', h0]

/-- The fallback to the whole base fires exactly when the Geography cohort is
empty. -/
lemma segmentSel_label_iff (data : List Record) (c : Client) :
    (segmentSel data c).2 = "вся база" ↔ segStep3 data c = [] := by
  rw [segmentSel_eq]
  have h13 : (segStep1 data c).length ≤ (segStep3 data c).length :=
    ((segStep1_sublist_segStep2 data c).trans
      (segStep2_sublist_segStep3 data c)).length_le
  have h23 : (segStep2 data c).length ≤ (segStep3 data c).length :=
    (segStep2_sublist_segStep3 data c).length_le
  by_cases h1 : 40 ≤ (segStep1 data c).length
  · have hne : segStep3 data c ≠ [] := by
      intro hh
      have h0 : (segStep3 data c).length = 0 := by rw [hh]; rfl
      omega
    simp [h1, hne]
  · by_cases h2 : 40 ≤ (segStep2 data c).length
    · have hne : segStep3 data c ≠ [] := by
        intro hh
        have h0 : (segStep3 data c).length = 0 := by rw [hh]; rfl
        omega
      simp [h1, h2, hne]
    · by_cases h3 : segStep3 data c = []
      · simp [h1, h2, h3]
      · simp [h1, h2, h3]

/-- A concrete row of the population table, used to instantiate theorems. -/
def recA : Record :=
  { customerId := 15634602
    creditScore := 650
    geography := "France"
    gender := "Female"
    age := 30
    tenure := 2
    balance := 0
    numOfProducts := 2
    hasCrCard := 1
    isActiveMember := 1
    estimatedSalary := 50000
    complain := 0
    satisfactionScore := 3
    cardType := "GOLD"
    pointEarned := 300
    exited := some 1 }

/-- A row whose outcome label is missing (as written by the save-client
path). -/
def recU : Record :=
  { customerId := 15634603
    creditScore := 700
    geography := "France"
    gender := "Male"
    age := 45
    tenure := 5
    balance := 120000
    numOfProducts := 1
    hasCrCard := 1
    isActiveMember := 0
    estimatedSalary := 70000
    complain := 1
    satisfactionScore := 2
    cardType := "SILVER"
    pointEarned := 500
    exited := none }

/-- A concrete customer profile. -/
def clientA : Client := clientOfRecord recA

/-- C1: for every population and every customer profile, the cohort is chosen
by the fixed ordered chain Geography+IsActiveMember+NumOfProducts (kept when
its size is ≥ 40), then Geography+IsActiveMember (kept when ≥ 40), then
Geography (kept whenever non-empty), and the whole base only when the
Geography cohort is empty; a Geography cohort of size 1-39 is final, and the
reported label is the one of the step that produced the final cohort. -/
theorem cohort_fallback_c1 (data : List Record) (c : Client) :
    (segmentSel data c =
      if 40 ≤ (segStep1 data c).length then
        (segStep1 data c, "Geography + IsActiveMember + NumOfProducts")
      else if 40 ≤ (segStep2 data c).length then
        (segStep2 data c, "Geography + IsActiveMember")
      else if segStep3 data c = [] then (data, "вся база")
      else (segStep3 data c, "Geography"))
    ∧ ((segmentSel data c).2 = "вся база" ↔ segStep3 data c = [])
    ∧ (1 ≤ (segStep3 data c).length → (segStep3 data c).length ≤ 39 →
        segmentSel data c = (segStep3 data c, "Geography")) := by
  refine ⟨segmentSel_eq data c, segmentSel_label_iff data c, fun hge hle => ?_⟩
  have h12 : (segStep1 data c).length ≤ (segStep2 data c).length :=
    (segStep1_sublist_segStep2 data c).length_le
  have h23 : (segStep2 data c).length ≤ (segStep3 data c).length :=
    (segStep2_sublist_segStep3 data c).length_le
  have h1 : ¬(40 ≤ (segStep1 data c).length) := by omega
  have h2 : ¬(40 ≤ (segStep2 data c).length) := by omega
  have h3 : segStep3 data c ≠ [] := by
    intro hh
    have h0 : (segStep3 data c).length = 0 := by rw [hh]; rfl
    omega
  rw [segmentSel_eq]
  simp [h1, h2, h3]

/-- Witness for C1: a one-record population whose Geography cohort has size 1
(below 40) is accepted at the Geography step; no fallback to the whole base. -/
theorem cohort_fallback_c1_witness :
    segmentSel [recA] clientA = (segStep3 [recA] clientA, "Geography") :=
  (cohort_fallback_c1 [recA] clientA).2.2 (by decide) (by decide)

/-- C5: each fallback step's candidate cohort is a sub-selection of the next,
coarser one (so a superset chain in the other direction), and cohort size is
non-decreasing along step1 → step2 → step3 → entire population. -/
theorem monotone_fallback_c5 (data : List Record) (c : Client) :
    (segStep1 data c).Sublist (segStep2 data c)
    ∧ (segStep2 data c).Sublist (segStep3 data c)
    ∧ (segStep3 data c).Sublist data
    ∧ segStep1 data c ⊆ segStep2 data c
    ∧ segStep2 data c ⊆ segStep3 data c
    ∧ segStep3 data c ⊆ data
    ∧ (segStep1 data c).length ≤ (segStep2 data c).length
    ∧ (segStep2 data c).length ≤ (segStep3 data c).length
    ∧ (segStep3 data c).length ≤ data.length :=
  ⟨segStep1_sublist_segStep2 data c,
   segStep2_sublist_segStep3 data c,
   segStep3_sublist_data data c,
   (segStep1_sublist_segStep2 data c).subset,
   (segStep2_sublist_segStep3 data c).subset,
   (segStep3_sublist_data data c).subset,
   (segStep1_sublist_segStep2 data c).length_le,
   (segStep2_sublist_segStep3 data c).length_le,
   (segStep3_sublist_data data c).length_le⟩

/-- C10: a customer drawn from the population by identifier matches the
step-1 predicate itself, so every cohort of the chain is non-empty and the
entire-population fallback branch is unreachable on the existing-customer
path. -/
theorem self_in_cohort_c10 (data : List Record) (r : Record) (h : r ∈ data) :
    r ∈ segStep1 data (clientOfRecord r)
    ∧ segStep1 data (clientOfRecord r) ≠ []
    ∧ segStep2 data (clientOfRecord r) ≠ []
    ∧ segStep3 data (clientOfRecord r) ≠ []
    ∧ (segmentSel data (clientOfRecord r)).2 ≠ "вся база" := by
  have hm : r ∈ segStep1 data (clientOfRecord r) := by
    simp [segStep1, List.mem_filter, h, clientOfRecord]
  have h1 : segStep1 data (clientOfRecord r) ≠ [] := List.ne_nil_of_mem hm
  have h2 : segStep2 data (clientOfRecord r) ≠ [] :=
    List.ne_nil_of_mem ((segStep1_sublist_segStep2 data _).subset hm)
  have h3 : segStep3 data (clientOfRecord r) ≠ [] :=
    List.ne_nil_of_mem ((segStep2_sublist_segStep3 data _).subset
      ((segStep1_sublist_segStep2 data _).subset hm))
  refine ⟨hm, h1, h2, h3, fun hl => h3 ?_⟩
  exact (segmentSel_label_iff data (clientOfRecord r)).mp hl

/-- Witness for C10 at a concrete one-record population. -/
theorem self_in_cohort_c10_witness :
    recA ∈ segStep1 [recA] (clientOfRecord recA)
    ∧ segStep1 [recA] (clientOfRecord recA) ≠ []
    ∧ segStep2 [recA] (clientOfRecord recA) ≠ []
    ∧ segStep3 [recA] (clientOfRecord recA) ≠ []
    ∧ (segmentSel [recA] (clientOfRecord recA)).2 ≠ "вся база" :=
  self_in_cohort_c10 [recA] recA (by simp)

/-- C9: an analysis request leaves the population state unchanged, its result
is a function of the population and the profile alone, and the selected
cohort is a sub-selection of the population (records are selected, never
rewritten). -/
theorem frame_c9 (st : AppState) (c : Client) :
    (analyzeAction st c).1 = st
    ∧ (analyzeAction st c).2 = evaluate st.data c
    ∧ (evaluate st.data c).cohort.Sublist st.data
    ∧ (∀ r ∈ (evaluate st.data c).cohort, r ∈ st.data) := by
  have hsub : (segmentSel st.data c).1.Sublist st.data := by
    rw [segmentSel_eq]
    by_cases h1 : 40 ≤ (segStep1 st.data c).length
    · simpa [h1] using (segStep1_sublist_segStep2 st.data c).trans
        ((segStep2_sublist_segStep3 st.data c).trans (segStep3_sublist_data st.data c))
    · by_cases h2 : 40 ≤ (segStep2 st.data c).length
      · simpa [h1, h2] using (segStep2_sublist_segStep3 st.data c).trans
          (segStep3_sublist_data st.data c)
      · by_cases h3 : segStep3 st.data c = []
        · simp [h1, h2, h3]
        · simpa [h1, h2, h3] using segStep3_sublist_data st.data c
  have hco : (evaluate st.data c).cohort = (segmentSel st.data c).1 := rfl
  exact ⟨rfl, rfl, by rw [hco]; exact hsub,
    fun r hr => hsub.subset (by rwa [hco] at hr)⟩

/-- C2: the risk tier is a pure function of the cohort churn rate with exactly
three labels; 0.15 is classified medium and 0.30 high. -/
theorem risk_tier_c2 (r : ℚ) :
    (riskLabel r = "Низкий риск" ∨ riskLabel r = "Средний риск" ∨
      riskLabel r = "Повышенный риск")
    ∧ (r < 15/100 → riskLabel r = "Низкий риск")
    ∧ (15/100 ≤ r → r < 30/100 → riskLabel r = "Средний риск")
    ∧ (30/100 ≤ r → riskLabel r = "Повышенный риск")
    ∧ riskLabel (15/100 : ℚ) = "Средний риск"
    ∧ riskLabel (30/100 : ℚ) = "Повышенный риск"
    ∧ riskLabelOfChurn (some r) = riskLabel r := by
  refine ⟨?_, fun h => ?_, fun h h' => ?_, fun h => ?_, ?_, ?_, rfl⟩
  · unfold riskLabel
    split_ifs <;> simp
  · rw [riskLabel, if_pos h]
  · rw [riskLabel, if_neg (not_lt.mpr h), if_pos h']
  · have h1 : ¬(r < 15/100) := not_lt.mpr (le_trans (by norm_num) h)
    have h2 : ¬(r < 30/100) := not_lt.mpr h
    rw [riskLabel, if_neg h1, if_neg h2]
  · norm_num [riskLabel]
  · norm_num [riskLabel]

/-- Witness for C2: the boundary churn rates 0.15 and 0.50. -/
theorem risk_tier_c2_witness :
    riskLabel (15/100 : ℚ) = "Средний риск"
    ∧ riskLabel (1/2 : ℚ) = "Повышенный риск" :=
  ⟨(risk_tier_c2 (15/100)).2.2.1 (by norm_num) (by norm_num),
   (risk_tier_c2 (1/2)).2.2.2.1 (by norm_num)⟩

/-- Counterexample for C3: on the empty population the evaluation does not
fail; it returns an assessment whose cohort is the (empty) whole base, whose
churn rate is undefined, and whose tier is the high-risk label. -/
theorem empty_population_c3_counterexample :
    (evaluate [] clientA).cohort = []
    ∧ (evaluate [] clientA).cohortLevel = "вся база"
    ∧ (evaluate [] clientA).cohortChurn = none
    ∧ (evaluate [] clientA).riskTier = "Повышенный риск" :=
  ⟨rfl, rfl, rfl, rfl⟩

/-- C3 amended: on an empty population the evaluation performs no input
validation and raises nothing; every profile gets the entire (empty)
population as cohort, an undefined (NaN) churn rate, and — because both
Python comparisons against NaN are false — the high-risk label. -/
theorem empty_population_c3_amended (c : Client) :
    (evaluate [] c).cohort = []
    ∧ (evaluate [] c).cohortLevel = "вся база"
    ∧ (evaluate [] c).cohortChurn = none
    ∧ (evaluate [] c).riskTier = "Повышенный риск" :=
  ⟨rfl, rfl, rfl, rfl⟩

lemma pct_of_all_le (vals : List ℚ) (v : ℚ) (hne : vals ≠ [])
    (hall : ∀ x ∈ vals, x ≤ v) : pct vals v = 1 := by
  have hf : vals.filter (fun x => decide (x ≤ v)) = vals := by
    rw [List.filter_eq_self]
    intro a ha
    exact decide_eq_true (hall a ha)
  have h0 : vals.length ≠ 0 := fun hl => hne (List.eq_nil_of_length_eq_zero hl)
  rw [pct, hf]
  exact div_self (Nat.cast_ne_zero.mpr h0)

lemma pct_of_unique_min (vals : List ℚ) (v : ℚ) (hmem : v ∈ vals)
    (hmin : ∀ x ∈ vals, v ≤ x) (hcount : vals.count v = 1) :
    pct vals v = 1 / (vals.length : ℚ) := by
  have hf : vals.filter (fun x => decide (x ≤ v)) =
      vals.filter (fun x => x == v) := by
    apply List.filter_congr
    intro x hx
    by_cases hxv : x = v
    · subst hxv
      simp
    · have hnle : ¬(x ≤ v) := fun hle => hxv (le_antisymm hle (hmin x hx))
      simp [hnle, hxv]
  have hc : (vals.filter (fun x => x == v)).length = vals.count v := by
    rw [List.count_eq_countP, List.countP_eq_length_filter]
  rw [pct, hf, hc, hcount]
  simp

/-- C4: each row of the percentile table is the inclusive fraction of the
whole population at or below the customer's value of the corresponding
attribute, attribute by attribute in the listed order; a value that is at
least every population value gets percentile 1, and a unique minimum gets
percentile 1/population_size. -/
theorem percentile_c4 (data : List Record) (c : Client) :
    ((percentileRows data c).map Prod.snd =
      [pct (data.map (·.creditScore)) c.creditScore,
       pct (data.map (·.age)) c.age,
       pct (data.map (·.balance)) c.balance,
       pct (data.map (·.estimatedSalary)) c.estimatedSalary,
       pct (data.map (·.tenure)) c.tenure,
       pct (data.map (·.satisfactionScore)) c.satisfactionScore,
       pct (data.map (·.pointEarned)) c.pointEarned])
    ∧ (∀ vals : List ℚ, ∀ v : ℚ, vals ≠ [] → (∀ x ∈ vals, x ≤ v) →
        pct vals v = 1)
    ∧ (∀ vals : List ℚ, ∀ v : ℚ, v ∈ vals → (∀ x ∈ vals, v ≤ x) →
        vals.count v = 1 → pct vals v = 1 / (vals.length : ℚ)) :=
  ⟨rfl, pct_of_all_le, pct_of_unique_min⟩

/-- Witness for C4: maximum and unique-minimum percentiles on a two-value
column. -/
theorem percentile_c4_witness :
    pct [(1 : ℚ), 2] 2 = 1
    ∧ pct [(1 : ℚ), 2] 1 = 1 / (([(1 : ℚ), 2] : List ℚ).length : ℚ) :=
  ⟨(percentile_c4 [] clientA).2.1 [(1 : ℚ), 2] 2 (by simp) (by norm_num),
   (percentile_c4 [] clientA).2.2 [(1 : ℚ), 2] 1 (by norm_num) (by norm_num)
     (by norm_num [List.count_cons])⟩

lemma filterMap_exited_map (l : List Record) :
    (l.map (·.exited)).filterMap id = l.filterMap (·.exited) := by
  induction l with
  | nil => rfl
  | cons a t ih => cases ha : a.exited <;> simp [ha, ih]

lemma filterMap_exited_filter (seg : List Record) :
    (seg.filter fun x => x.exited.isSome).filterMap (·.exited) =
      seg.filterMap (·.exited) := by
  induction seg with
  | nil => rfl
  | cons a t ih =>
    cases ha : a.exited with
    | none => simp [List.filter_cons, ha, ih]
    | some v => simp [List.filter_cons, ha, ih]

/-- C6: the cohort churn rate is the arithmetic mean over the records whose
outcome label is present; a record with a missing label does not contribute
to the mean at all (prepending one leaves the rate unchanged, so it is never
coerced to 0 or 1). -/
theorem churn_mean_c6 (seg : List Record) (r : Record) (hr : r.exited = none) :
    segmentChurn (r :: seg) = segmentChurn seg
    ∧ segmentChurn seg =
        seriesMean ((seg.filter fun x => x.exited.isSome).map (·.exited)) := by
  constructor
  · simp [segmentChurn, seriesMean, hr]
  · show seriesMean (seg.map (·.exited)) =
      seriesMean ((seg.filter fun x => x.exited.isSome).map (·.exited))
    simp only [seriesMean, filterMap_exited_map, filterMap_exited_filter]

/-- Witness for C6: one labelled record plus one unlabelled record. -/
theorem churn_mean_c6_witness :
    segmentChurn (recU :: [recA]) = segmentChurn [recA]
    ∧ segmentChurn [recA] =
        seriesMean (([recA].filter fun x => x.exited.isSome).map (·.exited)) :=
  churn_mean_c6 [recA] recU rfl

set_option maxHeartbeats 2000000 in
/-- C7: the factor list equals the messages of exactly the applicable checks
among the eight fixed ones, in the fixed listed order, with the empty result
replaced by the single placeholder. -/
theorem factor_list_c7 (data : List Record) (c : Client) :
    factorsF data c = factorsSpec data c
    ∧ (factorChecks data c).map Prod.snd =
      [germanyMsg, inactiveMsg, productsMsg, creditMsg, ageMsg,
       satisfactionMsg, complainMsg, balanceMsg] := by
  refine ⟨?_, rfl⟩
  unfold factorsF factorsSpec factorChecks
  by_cases h1 : c.geography = "Germany" <;>
    by_cases h2 : c.isActiveMember = 0 <;>
    by_cases h3 : (3 : ℚ) ≤ c.numOfProducts <;>
    by_cases h4 : c.creditScore < 600 <;>
    by_cases h5 : (40 : ℚ) ≤ c.age <;>
    by_cases h6 : c.satisfactionScore < 3 <;>
    by_cases h7 : (0 : ℚ) < c.complain <;>
    by_cases h8 : median (data.map (·.balance)) < c.balance <;>
    simp [h1, h2, h3, h4, h5, h6, h7, h8]

lemma le_seriesMax :
    ∀ (xs : List Int), ∀ x ∈ xs, ∃ m, seriesMax xs = some m ∧ x ≤ m := by
  intro xs
  induction xs with
  | nil => intro x hx; cases hx
  | cons a t ih =>
    intro x hx
    rcases List.mem_cons.mp hx with rfl | hxt
    · cases ht : seriesMax t with
      | none => exact ⟨x, by simp [seriesMax, ht], le_refl x⟩
      | some m => exact ⟨max x m, by simp [seriesMax, ht], le_max_left x m⟩
    · rcases ih x hxt with ⟨m, hm, hle⟩
      exact ⟨max a m, by simp [seriesMax, hm],
        le_trans hle (le_max_right a m)⟩

/-- C8: saving a profile appends one record whose identifier is strictly
greater than every identifier in the table, whose outcome label is unset, and
whose other attributes are the supplied ones under the same schema. -/
theorem save_client_c8 (data : List Record) (c : Client) (h : data ≠ []) :
    ∃ nid : Int,
      new_id data = some nid
      ∧ (∀ r ∈ data, r.customerId < nid)
      ∧ saveClient data c = some (data ++ [clientRow c nid])
      ∧ (clientRow c nid).customerId = nid
      ∧ (clientRow c nid).exited = none
      ∧ clientOfRecord (clientRow c nid) = c := by
  obtain ⟨d, t, rfl⟩ := List.exists_cons_of_ne_nil h
  obtain ⟨m, hm, -⟩ :=
    le_seriesMax ((d :: t).map (·.customerId)) d.customerId (by simp)
  refine ⟨m + 1, ?_, ?_, ?_, rfl, rfl, rfl⟩
  · rw [new_id, hm]
    rfl
  · intro r hr
    obtain ⟨m', hm', hle⟩ := le_seriesMax ((d :: t).map (·.customerId))
      r.customerId (List.mem_map_of_mem _ hr)
    rw [hm] at hm'
    have hmm : m = m' := Option.some.inj hm'
    omega
  · rw [saveClient, new_id, hm]
    rfl

/-- Witness for C8 on a one-record table. -/
theorem save_client_c8_witness :
    ∃ nid : Int,
      new_id [recA] = some nid
      ∧ (∀ r ∈ [recA], r.customerId < nid)
      ∧ saveClient [recA] clientA = some ([recA] ++ [clientRow clientA nid])
      ∧ (clientRow clientA nid).customerId = nid
      ∧ (clientRow clientA nid).exited = none
      ∧ clientOfRecord (clientRow clientA nid) = clientA :=
  save_client_c8 [recA] clientA (by simp)
